import Mathlib

/-!
Verification of the incremental data-synchronization engine
(`database/datafeed.py`, `database/utils/util.py`, `database/base.py`).

Modelling conventions of the shallow embedding:

* Dates are natural numbers interpreted as day indices, so that
  `datetime.timedelta(days = 1)` is `+ 1`.  Where the source compares the
  fixed `"%Y%m%d"` string constants (`"20050101"`, `"20231231"`), the
  corresponding numeric literals `20050101`, `20231231` stand for those
  constants; lexicographic comparison of equal-length date strings agrees
  with numeric comparison.
* A pandas `DataFrame` of rows becomes a `List` of records; the `None`
  returned by an adapter whose `_check_validity` failed becomes `Option.none`.
* A raised Python exception in a fallible operation becomes the `Except.error`
  / `Option.none` branch of the modelled function, carrying the message.
* The external tushare client is an explicit function argument `src` giving,
  for a ticker and a date range, the rows the source would return; the
  engine's behaviour is proved for every such `src`.
-/

/-- A persisted row of a time-indexed table: the composite key
`(ts_code, trade_date)` (for the dividend table the date column is `ex_date`).
The remaining per-category numeric columns never influence control flow and
are omitted from the key-level model. -/
structure Row where
  ts_code : String
  date : Nat
deriving DecidableEq, Repr

/-- `TSDataFeed` attributes set in `__init__`: ticker, `self.START`,
`self.END`.  `START = "20050101" if start_date is None else start_date`,
`END = "20231231" if end_date is None else end_date`. -/
structure TSFeed where
  ticker : Option String
  START : Nat
  END : Nat
deriving DecidableEq, Repr

/-- `TSDataFeed.__init__` (datafeed.py lines 69-78). -/
def ts_datafeed_init (ticker : Option String) (start_date end_date : Option Nat) : TSFeed :=
  { ticker := ticker
    START := start_date.getD 20050101
    END := end_date.getD 20231231 }

/-- The end date actually used by the range-fetch operations
(`fetch_volumn_price`, `fetch_stock_limit`, `fetch_stock_fundamental`):
`end_date = self.TODAY if update else self.END`. -/
def fetch_end_date (f : TSFeed) (update : Bool) (today : Nat) : Nat :=
  if update then today else f.END

/-- `DataFeedManager.__init__` default start date:
`"20050101" if start_date is None ... else start_date`. -/
def manager_start_date (start_date : Option Nat) : Nat :=
  start_date.getD 20050101

/-- `DataFeedManager.__init__` default end date:
`"20231231" if end_date is None ... else end_date`. -/
def manager_end_date (end_date : Option Nat) : Nat :=
  end_date.getD 20231231

/-- `DataFeedManager._get_table_ticker`:
`SELECT DISTINCT ts_code FROM table` (duckdb) / `distinct("ts_code")` (mongo). -/
def get_table_ticker (t : List Row) : List String :=
  (t.map Row.ts_code).dedup

/-- The `MAX(date_col)` aggregate of one `GROUP BY ts_code` group. -/
def group_max_date (t : List Row) (c : String) : Nat :=
  ((t.filter (fun r => r.ts_code == c)).map Row.date).foldl Nat.max 0

/-- `DataFeedManager._get_table_date` (`latest = False`):
`SELECT ts_code, MAX(date_col) AS max_date FROM table GROUP BY ts_code`. -/
def get_table_date (t : List Row) : List (String × Nat) :=
  (get_table_ticker t).map (fun c => (c, group_max_date t c))

/-- `DataFeedManager._get_table_date` with `latest = True`:
`table_date["max_date"].max()`.  On an empty table pandas yields `NaN`,
modelled as `none`. -/
def get_table_date_latest (t : List Row) : Option Nat :=
  ((get_table_date t).map Prod.snd).max?

/-- `DataFeedManager._get_ticker_date`: select the `max_date` row of
`ticker` from the `_get_table_date` result and add `shift` days
(`ticker_date + datetime.timedelta(shift)`).  `.iloc[0]` raises on a ticker
with no group; that failure is `none`. -/
def get_ticker_date (table_date : List (String × Nat)) (ticker : String)
    (shift : Nat) : Option Nat :=
  (table_date.find? (fun p => p.1 == ticker)).map (fun p => p.2 + shift)

/-- The maximum persisted date of an entity, in the spec's words
(the watermark): `max(date for entity)` over the existing records. -/
def max_persisted (t : List Row) (c : String) : Option Nat :=
  ((t.filter (fun r => r.ts_code == c)).map Row.date).max?

/-- The spec's next-fetch-start: `max(date for entity) + 1 day`. -/
def spec_next_fetch_start (t : List Row) (c : String) : Option Nat :=
  (max_persisted t c).map (fun d => d + 1)

/-- `DataFeedManager._load_datafeed` with `update=True`: for each ticker the
feed is created with `start_date = self._get_ticker_date(table_date, ticker,
shift=1)` and `end_date = self.TODAY`. -/
def load_datafeed_update (table : List Row) (tickers : List String)
    (today : Nat) : List (Option TSFeed) :=
  tickers.map (fun c =>
    (get_ticker_date (get_table_date table) c 1).map
      (fun s => ts_datafeed_init (some c) (some s) (some today)))

/-- A raw dividend record as returned by `pro.dividend(ts_code=...)` with
fields `ts_code, cash_div, stk_div, stk_bo_rate, stk_co_rate, ex_date`.
The `Float64` payload columns are carried as integers (they never influence
control flow); `ex_date = none` models a pandas `NaN` ex-date. -/
structure DivRec where
  ts_code : String
  cash_div : Int
  stk_div : Int
  stk_bo_rate : Int
  stk_co_rate : Int
  ex_date : Option Nat
deriving DecidableEq, Repr

/-- `TSDataFeed.fetch_stock_dividend` (datafeed.py lines 112-123): validity
check (`None` on an empty result), `drop_duplicates`, keep rows with
`ex_date` not-NA, and under `update=True` keep only rows with
`ex_date > cutoff`. -/
def fetch_stock_dividend (raw : List DivRec) (update : Bool) (cutoff : Nat) :
    Option (List DivRec) :=
  if raw.isEmpty then none
  else
    let q := raw.dedup
    let q := q.filter (fun r => r.ex_date.isSome)
    let q := if update then q.filter (fun r => decide (cutoff < r.ex_date.getD 0)) else q
    some q

/-- One unit of `DataFeedManager.fetch_stock_dividend_data`'s incremental
loop (datafeed.py lines 573-580): the cutoff handed to the adapter is
`next_ticker_date = self._get_ticker_date(table_date, ticker, shift=1)`,
i.e. the ticker's maximum persisted ex-date **plus one day**. -/
def fetch_stock_dividend_update_unit (table : List Row) (ticker : String)
    (raw : List DivRec) : Option (List DivRec) :=
  match get_ticker_date (get_table_date table) ticker 1 with
  | none => none
  | some next_ticker_date => fetch_stock_dividend raw true next_ticker_date

/-- `_check_validity` (both in `TSDataFeed` and `DataFeedManager`):
`data.empty` → `False`; `data is None` → `False`; otherwise `True`. -/
def check_validity : Option (List Row) → Bool
  | none => false
  | some l => !l.isEmpty

/-- The validity gate inside the range-fetch adapter operations
(e.g. `fetch_volumn_price`): an empty result set makes the operation
`return` `None`; otherwise the (date-normalized) rows are returned. -/
def adapter_result (raw : List Row) : Option (List Row) :=
  if raw.isEmpty then none else some raw

/-- Outcome of `DataFeedManager.fetch_stock_basic_data`
(datafeed.py lines 660-710): whether the empty-data warning was logged and
whether `_insert_df_to_table` was invoked. -/
structure BasicRunResult where
  table : List Row
  warned : Bool
  insert_called : Bool
deriving DecidableEq, Repr

/-- `DataFeedManager.fetch_stock_basic_data`, final stage (lines 706-710):
`data = ...fetch_stock_basic(...)`; `if not self._check_validity(data):
logger.warning(...)` — with no early return — then unconditionally
`self._insert_df_to_table(data, table_name)`. -/
def fetch_stock_basic_data (data : List Row) (table : List Row) : BasicRunResult :=
  { table := table ++ data
    warned := !check_validity (some data)
    insert_called := true }

/-- One fetch issued by the engine: the unit's ticker and the date range
handed to the rate-limited adapter call. -/
structure FetchEvent where
  ticker : String
  start_date : Nat
  end_date : Nat
deriving DecidableEq, Repr

/-- `DataFeedManager._check_data_exists` for a ticker key
(`"." in data_str`): `SELECT * FROM table WHERE ts_code='...'`; the caller
uses the truthiness of the returned row list. -/
def check_data_exists (table : List Row) (c : String) : Bool :=
  !(table.filter (fun r => r.ts_code == c)).isEmpty

/-- `_check_data_exists` for a date key (suspension category):
`SELECT * FROM table WHERE trade_date='...'`. -/
def check_date_exists (table : List Row) (d : Nat) : Bool :=
  !(table.filter (fun r => r.date == d)).isEmpty

/-- Table creation on first touch (`if not self._check_table_exists(...):
CREATE TABLE ...`): a missing table becomes an empty one. -/
def ensure_schema (existing_table : Option (List Row)) : List Row :=
  existing_table.getD []

/-- The shared shape of the engine's incremental loops
(`for ticker, feed in ...: data = feed.fetch_...(update=True); if not
self._check_validity(data): warn; continue; self._insert_df_to_table(...)`).
Each unit is fetched (recorded as a `FetchEvent`); an invalid (empty) result
is skipped, otherwise the rows are appended. -/
def unit_loop (src : String → Nat → Nat → List Row) :
    List FetchEvent → List Row → List FetchEvent → List Row × List FetchEvent
  | [], table, evs => (table, evs)
  | u :: rest, table, evs =>
    let data := adapter_result (src u.ticker u.start_date u.end_date)
    if check_validity data then
      unit_loop src rest (table ++ data.getD []) (evs ++ [u])
    else
      unit_loop src rest table (evs ++ [u])

/-- The engine's non-incremental (backfill) loop
(`for ticker, feed in ...: if not self._check_data_exists(table_name,
ticker): fetch / validate / insert; else continue`).  The existence check
runs against the current table state, so rows inserted earlier in the same
loop are visible. -/
def normal_loop (src : String → Nat → Nat → List Row) (s e : Nat) :
    List String → List Row → List FetchEvent → List Row × List FetchEvent
  | [], table, evs => (table, evs)
  | c :: cs, table, evs =>
    if check_data_exists table c then
      normal_loop src s e cs table evs
    else
      let data := adapter_result (src c s e)
      if check_validity data then
        normal_loop src s e cs (table ++ data.getD []) (evs ++ [⟨c, s, e⟩])
      else
        normal_loop src s e cs table (evs ++ [⟨c, s, e⟩])

/-- Outcome of one `fetch_*_data` engine call: final table, the fetches
issued, and the propagated exception, if any. -/
structure RunResult where
  table : List Row
  events : List FetchEvent
  err : Option String
deriving DecidableEq, Repr

/-- `DataFeedManager.fetch_volumn_price_data` (datafeed.py lines 274-361);
`fetch_stock_limit_data` and `fetch_stock_fundamental_data` have the same
structure.  Incremental mode: raise `LookupError` on an empty table;
otherwise extend every persisted ticker from its watermark + 1 day to today,
then backfill every requested ticker absent from the table over
`[self.start_date, self.TODAY]`.  Non-incremental mode: the existence-gated
backfill loop over `[self.start_date, self.end_date]`. -/
def fetch_volumn_price_data (src : String → Nat → Nat → List Row)
    (existing_table : Option (List Row)) (ticker_list : List String)
    (start_date end_date today : Nat) (update : Bool) : RunResult :=
  if update then
    if (ensure_schema existing_table).isEmpty then
      { table := ensure_schema existing_table, events := [],
        err := some "LookupError: Table is empty, insert data into table first!" }
    else
      let table := ensure_schema existing_table
      let table_ticker_list := get_table_ticker table
      let units1 := table_ticker_list.filterMap (fun c =>
        (get_ticker_date (get_table_date table) c 1).map
          (fun sd => FetchEvent.mk c sd today))
      let p1 := unit_loop src units1 table []
      let extra := ticker_list.filter (fun c => !(table_ticker_list.contains c))
      let units2 := extra.map (fun c => FetchEvent.mk c start_date today)
      let p2 := unit_loop src units2 p1.1 p1.2
      { table := p2.1, events := p2.2, err := none }
  else
    let p := normal_loop src start_date end_date ticker_list
      (ensure_schema existing_table) []
    { table := p.1, events := p.2, err := none }

/-- A non-incremental engine call (`update=False`), as run twice in C8. -/
def run_backfill (src : String → Nat → Nat → List Row)
    (ticker_list : List String) (start_date end_date today : Nat)
    (t : List Row) : RunResult :=
  fetch_volumn_price_data src (some t) ticker_list start_date end_date today false

/-- Outcome of a `fetch_stock_suspend_data` call: final table, the trade
dates fetched, and the propagated exception, if any. -/
structure SuspendRunResult where
  table : List Row
  fetched : List Nat
  err : Option String
deriving DecidableEq, Repr

/-- The per-trade-date loop of `fetch_stock_suspend_data`'s incremental
branch. -/
def suspend_loop (src : Nat → List Row) :
    List Nat → List Row → List Nat → List Row × List Nat
  | [], table, fetched => (table, fetched)
  | d :: ds, table, fetched =>
    let data := adapter_result (src d)
    if check_validity data then
      suspend_loop src ds (table ++ data.getD []) (fetched ++ [d])
    else
      suspend_loop src ds table (fetched ++ [d])

/-- The per-trade-date loop of `fetch_stock_suspend_data`'s non-incremental
branch (existence check keyed by date). -/
def suspend_normal_loop (src : Nat → List Row) :
    List Nat → List Row → List Nat → List Row × List Nat
  | [], table, fetched => (table, fetched)
  | d :: ds, table, fetched =>
    if check_date_exists table d then
      suspend_normal_loop src ds table fetched
    else
      let data := adapter_result (src d)
      if check_validity data then
        suspend_normal_loop src ds (table ++ data.getD []) (fetched ++ [d])
      else
        suspend_normal_loop src ds table (fetched ++ [d])

/-- `DataFeedManager.fetch_stock_suspend_data` (datafeed.py lines 604-658).
Incremental mode starts from `calendar.next_trade_day(self._get_table_date(
table_name, latest=True))`; on an empty (or just-created) table the
`latest` aggregate is pandas `NaN` and `next_trade_day(NaN)` raises a
`TypeError` before the per-date loop starts. -/
def fetch_stock_suspend_data (src : Nat → List Row)
    (next_trade_day : Nat → Nat) (trade_days : Nat → Nat → List Nat)
    (existing_table : Option (List Row)) (start_date end_date today : Nat)
    (update : Bool) : SuspendRunResult :=
  if update then
    match get_table_date_latest (ensure_schema existing_table) with
    | none =>
        { table := ensure_schema existing_table, fetched := [],
          err := some "TypeError: unsupported operand types for NaN + timedelta" }
    | some d =>
        let p := suspend_loop src (trade_days (next_trade_day d) today)
          (ensure_schema existing_table) []
        { table := p.1, fetched := p.2, err := none }
  else
    let p := suspend_normal_loop src (trade_days start_date end_date)
      (ensure_schema existing_table) []
    { table := p.1, fetched := p.2, err := none }

/-- A sample concrete source used by witnesses: every ticker has exactly one
row, dated day 5. -/
def sample_src : String → Nat → Nat → List Row := fun c _ _ => [⟨c, 5⟩]

/-- The composite key `(entity, date)` of a persisted row. -/
def composite_key (r : Row) : String × Nat := (r.ts_code, r.date)

/-- The engine's per-unit loop as written in the source, with the fetch's
failure mode made explicit (`data = feed.fetch_...(...)` may raise): there
is **no** try/except around the loop body (datafeed.py lines 330-349), so a
raised exception propagates immediately.  Returns the final table, the units
whose fetch completed, and the propagated exception, if any. -/
def feed_loop (fetch : String → Except String (List Row)) :
    List String → List Row → List Row × List String × Option String
  | [], table => (table, [], none)
  | u :: rest, table =>
    match fetch u with
    | Except.error e => (table, [], some e)
    | Except.ok data =>
      if check_validity (adapter_result data) then
        let p := feed_loop fetch rest (table ++ data)
        (p.1, u :: p.2.1, p.2.2)
      else
        let p := feed_loop fetch rest table
        (p.1, u :: p.2.1, p.2.2)

/-- A concrete batch for C5: the first unit's fetch raises, the second
unit's fetch would return one row. -/
def c5_fetch : String → Except String (List Row) := fun u =>
  if u == "600000.SH" then Except.error "ConnectionError: boom"
  else Except.ok [⟨"000001.SZ", 7⟩]

/-- The mutable closure state of one `rate_limiter`-wrapped function
(util.py lines 35-62): the `(calls, start_time)` pair guarded by the lock.
Note the decorator is applied to each fetch method separately, so each
wrapped method owns its own such state. -/
structure RLState where
  calls : Nat
  start : Nat
deriving DecidableEq, Repr

/-- One pass through the `wrapper` body for a call arriving at time `t`
(seconds): if `current_time - start_time > 60`, reset the counter and the
window start; if `calls >= max_calls_per_minute`, sleep until
`start_time + 60`, then reset (`start_time = time.time()` after the sleep);
finally `calls += 1` and the wrapped call proceeds.  Returns the new state
and the admission time at which the wrapped call proceeds. -/
def rate_limiter_step (N : Nat) (st : RLState) (t : Nat) : RLState × Nat :=
  let st1 := if st.start + 60 < t then RLState.mk 0 t else st
  if N ≤ st1.calls then
    let adm := max t (st1.start + 60)
    (RLState.mk 1 adm, adm)
  else
    (RLState.mk (st1.calls + 1) st1.start, t)

/-- The admission times produced by a sequence of call-arrival times fed
through one wrapped function (callers serialize on the lock). -/
def rate_limiter_run (N : Nat) : RLState → List Nat → List Nat
  | _, [] => []
  | st, t :: ts =>
    let p := rate_limiter_step N st t
    p.2 :: rate_limiter_run N p.1 ts

/-- A schedule is valid when each call is issued no earlier than the lower
bound `lb` (initially the window-start instant) and no earlier than the
previous call's admission — the callers are sequential background workers
that cannot issue a call before the previous one was released. -/
def valid_sched (N : Nat) : RLState → Nat → List Nat → Bool
  | _, _, [] => true
  | st, lb, t :: ts =>
    let p := rate_limiter_step N st t
    decide (lb ≤ t) && valid_sched N p.1 p.2 ts

/-- The C3 schedule: with `max_calls = 500`, 500 calls issued at second 59
of the first window, then 500 more back-to-back calls (the 501st blocks
until second 60 and the rest are admitted immediately after). -/
def c3_sched : List Nat :=
  List.replicate 500 59 ++ 59 :: List.replicate 499 60

/-- The six connection attributes set by `DatabaseConnection.__init__`
(base.py lines 15-21); every field defaults to `None`. -/
structure ConnAttrs where
  host : Option String
  port : Option Nat
  username : Option String
  password : Option String
  data_path : Option String
  factor_path : Option String
deriving DecidableEq, Repr

/-- Process-wide Python state relevant to `DatabaseConnection`:
whether `DatabaseConnection._instance` has been allocated, and the attribute
values currently stored on that (single) instance.  Object references are
modelled as numeric ids; `__new__` always hands out the id of the one
allocated instance. -/
structure PyState where
  instance_allocated : Bool
  attrs : ConnAttrs
deriving DecidableEq, Repr

/-- The singleton's reference id. -/
def singleton_ref : Nat := 0

/-- `DatabaseConnection.__new__`: allocate `_instance` only if it is `None`,
then return it — the same object on every call. -/
def database_connection_new (s : PyState) : Nat × PyState :=
  (singleton_ref, { s with instance_allocated := true })

/-- `DatabaseConnection(...)` as invoked by `ConnectionBuilder.build`:
`__new__` (returning the singleton) followed by `__init__`, which
unconditionally overwrites all six attributes with the keyword arguments of
this newest call (missing keywords default to `None`). -/
def database_connection_call (s : PyState) (a : ConnAttrs) : Nat × PyState :=
  let p := database_connection_new s
  (p.1, { p.2 with attrs := a })

/-- The keyword-argument dictionary accumulated by `ConnectionBuilder`:
`host/port/username/password` are always present (possibly `None`);
`data_path`/`factor_path` keys exist only after `set_data_file_path` /
`set_factor_file_path` were called. -/
structure BuilderConfig where
  host : Option String
  port : Option Nat
  username : Option String
  password : Option String
  data_path : Option (Option String)
  factor_path : Option (Option String)
deriving DecidableEq, Repr

/-- `ConnectionBuilder.build`: `DatabaseConnection(**self._config)` — keys
absent from the config fall back to the `__init__` defaults (`None`). -/
def connection_builder_build (s : PyState) (cfg : BuilderConfig) : Nat × PyState :=
  database_connection_call s
    { host := cfg.host
      port := cfg.port
      username := cfg.username
      password := cfg.password
      data_path := cfg.data_path.getD none
      factor_path := cfg.factor_path.getD none }

/-- A supported backend identifier, or the wildcard arm of the `match` in
`connection_factory` (which raises `NotImplementedError`). -/
inductive DbType
  | mongodb
  | duckdb
  | chdb
  | unsupported (name : String)
deriving DecidableEq, Repr

/-- The per-backend section of the `db_config.yaml` database configuration
(`database_cfg[db_type]`): the builder constructor keywords (absent keys
become `None`) and the storage paths read for the file-backed stores. -/
structure BackendCfg where
  host : Option String
  port : Option Nat
  username : Option String
  password : Option String
  data_path : String
  factor_path : String
deriving DecidableEq, Repr

/-- `connection_factory` (base.py lines 48-61): build a `ConnectionBuilder`
from the backend's config section; for `duckdb`/`chdb` additionally set the
data and factor file paths; for an unsupported identifier raise
`NotImplementedError`; finally `build()`. -/
def connection_factory (cfg_of : DbType → BackendCfg) (db : DbType)
    (s : PyState) : Except String (Nat × PyState) :=
  match db with
  | DbType.mongodb =>
      let c := cfg_of DbType.mongodb
      Except.ok (connection_builder_build s
        { host := c.host, port := c.port, username := c.username,
          password := c.password, data_path := none, factor_path := none })
  | DbType.duckdb =>
      let c := cfg_of DbType.duckdb
      Except.ok (connection_builder_build s
        { host := c.host, port := c.port, username := c.username,
          password := c.password, data_path := some (some c.data_path),
          factor_path := some (some c.factor_path) })
  | DbType.chdb =>
      let c := cfg_of DbType.chdb
      Except.ok (connection_builder_build s
        { host := c.host, port := c.port, username := c.username,
          password := c.password, data_path := some (some c.data_path),
          factor_path := some (some c.factor_path) })
  | DbType.unsupported name =>
      Except.error ("NotImplementedError: Database " ++ name ++ " not implemented yet.")

/-- Whether `connection_factory` accepts the identifier. -/
def is_supported : DbType → Bool
  | DbType.mongodb => true
  | DbType.duckdb => true
  | DbType.chdb => true
  | DbType.unsupported _ => false

/-- The attributes a `connection_factory` call for `db` leaves on the
singleton: the newest call's configuration, with attributes not supplied by
that call reset to `None` (for `mongodb` the builder sets no path keys, so
both paths become `None`). -/
def factory_attrs (cfg_of : DbType → BackendCfg) : DbType → ConnAttrs
  | DbType.mongodb =>
      { host := (cfg_of DbType.mongodb).host, port := (cfg_of DbType.mongodb).port,
        username := (cfg_of DbType.mongodb).username,
        password := (cfg_of DbType.mongodb).password,
        data_path := none, factor_path := none }
  | DbType.duckdb =>
      { host := (cfg_of DbType.duckdb).host, port := (cfg_of DbType.duckdb).port,
        username := (cfg_of DbType.duckdb).username,
        password := (cfg_of DbType.duckdb).password,
        data_path := some (cfg_of DbType.duckdb).data_path,
        factor_path := some (cfg_of DbType.duckdb).factor_path }
  | DbType.chdb =>
      { host := (cfg_of DbType.chdb).host, port := (cfg_of DbType.chdb).port,
        username := (cfg_of DbType.chdb).username,
        password := (cfg_of DbType.chdb).password,
        data_path := some (cfg_of DbType.chdb).data_path,
        factor_path := some (cfg_of DbType.chdb).factor_path }
  | DbType.unsupported _ =>
      { host := none, port := none, username := none, password := none,
        data_path := none, factor_path := none }

theorem find?_beq_self (l : List String) (c : String) (h : c ∈ l) :
    l.find? (fun x => x == c) = some c := by
  induction l with
  | nil => cases h
  | cons a as ih =>
    by_cases hac : a == c
    · simp [List.find?, hac, eq_of_beq hac]
    · have : c ∈ as := by
        cases h with
        | head => simp at hac
        | tail _ h' => exact h'
      simp [List.find?, hac, ih this]

theorem max?_eq_foldl (l : List Nat) (h : l ≠ []) :
    l.max? = some (l.foldl Nat.max 0) := by
  cases l with
  | nil => exact absurd rfl h
  | cons a as => simp [List.max?, List.foldl, Nat.zero_max]

/-- The watermark pipeline of the source
(`_get_table_date` then `_get_ticker_date` with `shift=1`) computes exactly
the spec's `max persisted date + 1 day`, for every table and ticker
(`none` on both sides exactly when the ticker has no persisted record). -/
theorem get_ticker_date_eq_spec (t : List Row) (c : String) :
    get_ticker_date (get_table_date t) c 1 = spec_next_fetch_start t c := by
  unfold get_ticker_date get_table_date spec_next_fetch_start max_persisted
  rw [List.find?_map]
  by_cases hc : c ∈ t.map Row.ts_code
  · have hdedup : c ∈ get_table_ticker t := List.mem_dedup.mpr hc
    have hfind : (get_table_ticker t).find?
        ((fun p : String × Nat => p.1 == c) ∘ fun c' => (c', group_max_date t c'))
        = some c := by
      have : ((fun p : String × Nat => p.1 == c) ∘
          fun c' => (c', group_max_date t c')) = fun x => x == c := rfl
      rw [this]
      exact find?_beq_self _ _ hdedup
    rw [hfind]
    obtain ⟨r, hr, hrc⟩ := List.mem_map.mp hc
    have hne : (t.filter (fun r => r.ts_code == c)).map Row.date ≠ [] := by
      have : r ∈ t.filter (fun r => r.ts_code == c) := by
        refine List.mem_filter.mpr ⟨hr, ?_⟩
        simp [hrc]
      intro hnil
      have := List.mem_map_of_mem Row.date this
      rw [hnil] at this
      cases this
    rw [max?_eq_foldl _ hne]
    simp [group_max_date]
  · have hfind : (get_table_ticker t).find?
        ((fun p : String × Nat => p.1 == c) ∘ fun c' => (c', group_max_date t c'))
        = none := by
      refine List.find?_eq_none.mpr ?_
      intro x hx
      have hxmem : x ∈ t.map Row.ts_code := List.mem_dedup.mp hx
      simp only [Function.comp]
      intro hbeq
      exact hc (eq_of_beq hbeq ▸ hxmem)
    have hfilter : t.filter (fun r => r.ts_code == c) = [] := by
      refine List.filter_eq_nil_iff.mpr ?_
      intro r hr hbeq
      exact hc (List.mem_map.mpr ⟨r, hr, eq_of_beq hbeq⟩)
    rw [hfind, hfilter]
    simp

/-- C1: in an incremental update the feed created for each persisted ticker
uses `max persisted date for that ticker + 1 day` as the start of its
extend-mode fetch range (and `today` as the end). -/
theorem c1_incremental_start_is_watermark_plus_one
    (t : List Row) (tickers : List String) (today : Nat)
    (i : Nat) (c : String) (hi : tickers[i]? = some c) :
    (load_datafeed_update t tickers today)[i]? =
      some ((spec_next_fetch_start t c).map
        (fun s => ts_datafeed_init (some c) (some s) (some today))) := by
  unfold load_datafeed_update
  rw [List.getElem?_map, hi]
  simp [get_ticker_date_eq_spec]

theorem c1_incremental_start_is_watermark_plus_one_witness :
    (["600000.SH"] : List String)[0]? = some "600000.SH" ∧
    (load_datafeed_update [⟨"600000.SH", 5⟩] ["600000.SH"] 7)[0]? =
      some ((spec_next_fetch_start [⟨"600000.SH", 5⟩] "600000.SH").map
        (fun s => ts_datafeed_init (some "600000.SH") (some s) (some 7))) :=
  ⟨by decide,
   c1_incremental_start_is_watermark_plus_one [⟨"600000.SH", 5⟩]
     ["600000.SH"] 7 0 "600000.SH" (by decide)⟩

/-- C9 counterexample: with no end date supplied, a non-incremental fetch
does NOT end at the current date: `TSDataFeed.__init__` hard-codes
`END = "20231231"`, and `fetch_volumn_price` with `update=False` uses
`self.END`.  At run date 2025-10-12 the fetch end is still 20231231. -/
theorem c9_counterexample_default_end_is_constant :
    fetch_end_date (ts_datafeed_init none none none) false 20251012 = 20231231 ∧
    (20231231 : Nat) ≠ 20251012 := by
  constructor
  · rfl
  · decide

/-- C9 (amended): with unspecified dates the fetch range defaults to the
configured historical floor `20050101` as start and the fixed constant
`20231231` as end; the fetch end equals the current date only when
`update=True` (incremental mode), never by default for non-incremental
fetches. -/
theorem c9_amended_default_range (today : Nat) (t : Option String) (s : Option Nat) :
    (ts_datafeed_init t none none).START = 20050101 ∧
    fetch_end_date (ts_datafeed_init t s none) false today = 20231231 ∧
    fetch_end_date (ts_datafeed_init t s none) true today = today ∧
    manager_start_date none = 20050101 ∧
    manager_end_date none = 20231231 := by
  refine ⟨rfl, rfl, rfl, rfl, rfl⟩

/-- C2 (code bug): for a ticker whose maximum persisted ex-date is day 100,
the incremental dividend unit passes cutoff `101 = 100 + 1` to the adapter,
whose filter keeps only `ex_date > 101`; a source record with ex-date 101 —
strictly after the watermark 100 and not yet synced — is therefore excluded
and never inserted, contradicting the claim that no record with ex-date
strictly after the watermark is excluded by the cutoff filter. -/
theorem c2_record_on_day_after_watermark_dropped :
    get_ticker_date (get_table_date [⟨"600000.SH", 100⟩]) "600000.SH" 1 = some 101 ∧
    fetch_stock_dividend_update_unit [⟨"600000.SH", 100⟩] "600000.SH"
      [⟨"600000.SH", 1, 0, 0, 0, some 101⟩] = some [] := by
  constructor
  · rfl
  · rfl

/-- C6 (code bug): in the reference-basic category an empty fetch result is
logged as a warning but the unit is NOT skipped — `_insert_df_to_table` is
still invoked on the empty data, because the `if not
self._check_validity(data)` branch lacks the early return every other
category has. -/
theorem c6_basic_empty_result_not_skipped :
    (fetch_stock_basic_data [] [⟨"600000.SH", 3⟩]).warned = true ∧
    (fetch_stock_basic_data [] [⟨"600000.SH", 3⟩]).insert_called = true := by
  constructor
  · rfl
  · rfl

theorem check_validity_adapter (raw : List Row) :
    check_validity (adapter_result raw) = !raw.isEmpty := by
  by_cases h : raw.isEmpty <;> simp [adapter_result, check_validity, h]

theorem unit_loop_table_mono (src : String → Nat → Nat → List Row) :
    ∀ (units : List FetchEvent) (table : List Row) (evs : List FetchEvent)
      (r : Row), r ∈ table → r ∈ (unit_loop src units table evs).1 := by
  intro units
  induction units with
  | nil => intro table evs r hr; exact hr
  | cons u rest ih =>
    intro table evs r hr
    simp only [unit_loop]
    by_cases h : check_validity (adapter_result (src u.ticker u.start_date u.end_date))
    · simp only [h, if_true]
      exact ih _ _ r (List.mem_append_left _ hr)
    · simp only [h, if_false]
      exact ih _ _ r hr

theorem unit_loop_events_mono (src : String → Nat → Nat → List Row) :
    ∀ (units : List FetchEvent) (table : List Row) (evs : List FetchEvent)
      (u : FetchEvent), u ∈ evs → u ∈ (unit_loop src units table evs).2 := by
  intro units
  induction units with
  | nil => intro table evs u hu; exact hu
  | cons v rest ih =>
    intro table evs u hu
    simp only [unit_loop]
    by_cases h : check_validity (adapter_result (src v.ticker v.start_date v.end_date))
    · simp only [h, if_true]; exact ih _ _ u (List.mem_append_left _ hu)
    · simp only [h, if_false]; exact ih _ _ u (List.mem_append_left _ hu)

theorem unit_loop_mem (src : String → Nat → Nat → List Row) :
    ∀ (units : List FetchEvent) (table : List Row) (evs : List FetchEvent)
      (u : FetchEvent), u ∈ units →
      u ∈ (unit_loop src units table evs).2 ∧
      ∀ r ∈ src u.ticker u.start_date u.end_date,
        r ∈ (unit_loop src units table evs).1 := by
  intro units
  induction units with
  | nil => intro table evs u hu; cases hu
  | cons v rest ih =>
    intro table evs u hu
    simp only [unit_loop]
    rcases List.mem_cons.mp hu with huv | hurest
    · subst huv
      by_cases h : check_validity (adapter_result (src u.ticker u.start_date u.end_date))
      · simp only [h, if_true]
        constructor
        · exact unit_loop_events_mono src rest _ _ u
            (List.mem_append_right _ (List.mem_singleton.mpr rfl))
        · intro r hr
          have hraw : ¬ (src u.ticker u.start_date u.end_date).isEmpty := by
            rw [check_validity_adapter] at h
            simpa using h
          have hdata : (adapter_result (src u.ticker u.start_date u.end_date)).getD []
              = src u.ticker u.start_date u.end_date := by
            simp [adapter_result, hraw]
          refine unit_loop_table_mono src rest _ _ r ?_
          rw [hdata]
          exact List.mem_append_right _ hr
      · simp only [h, if_false]
        constructor
        · exact unit_loop_events_mono src rest _ _ u
            (List.mem_append_right _ (List.mem_singleton.mpr rfl))
        · intro r hr
          have hraw : (src u.ticker u.start_date u.end_date).isEmpty := by
            rw [check_validity_adapter] at h
            simpa using h
          rw [List.isEmpty_iff.mp hraw] at hr
          cases hr
    · by_cases h : check_validity (adapter_result (src v.ticker v.start_date v.end_date))
      · simp only [h, if_true]; exact ih _ _ u hurest
      · simp only [h, if_false]; exact ih _ _ u hurest

/-- C4: an incremental run over a universe containing a ticker with no rows
in the (non-empty) table does not skip it: the run issues a backfill fetch
for it over `[configured start, today]` and every row of that fetch's result
ends up inserted in the final table. -/
theorem c4_new_ticker_routed_to_backfill (src : String → Nat → Nat → List Row)
    (table : List Row) (ticker_list : List String)
    (start_date end_date today : Nat) (c : String)
    (hne : table.isEmpty = false) (hc : c ∈ ticker_list)
    (hnew : (get_table_ticker table).contains c = false) :
    FetchEvent.mk c start_date today ∈
      (fetch_volumn_price_data src (some table) ticker_list
        start_date end_date today true).events ∧
    ∀ r ∈ src c start_date today,
      r ∈ (fetch_volumn_price_data src (some table) ticker_list
        start_date end_date today true).table := by
  have hu : FetchEvent.mk c start_date today ∈
      (ticker_list.filter (fun c' => !((get_table_ticker table).contains c'))).map
        (fun c' => FetchEvent.mk c' start_date today) := by
    refine List.mem_map.mpr ⟨c, ?_, rfl⟩
    exact List.mem_filter.mpr ⟨hc, by rw [hnew]; rfl⟩
  have := unit_loop_mem src
    ((ticker_list.filter (fun c' => !((get_table_ticker table).contains c'))).map
      (fun c' => FetchEvent.mk c' start_date today))
    (unit_loop src ((get_table_ticker table).filterMap (fun c' =>
        (get_ticker_date (get_table_date table) c' 1).map
          (fun sd => FetchEvent.mk c' sd today))) table []).1
    (unit_loop src ((get_table_ticker table).filterMap (fun c' =>
        (get_ticker_date (get_table_date table) c' 1).map
          (fun sd => FetchEvent.mk c' sd today))) table []).2
    (FetchEvent.mk c start_date today) hu
  simpa [fetch_volumn_price_data, ensure_schema, hne] using this

theorem c4_new_ticker_routed_to_backfill_witness :
    ([⟨"600000.SH", 100⟩] : List Row).isEmpty = false ∧
    "000001.SZ" ∈ ["600000.SH", "000001.SZ"] ∧
    (get_table_ticker [⟨"600000.SH", 100⟩]).contains "000001.SZ" = false ∧
    (FetchEvent.mk "000001.SZ" 1 9 ∈
      (fetch_volumn_price_data sample_src (some [⟨"600000.SH", 100⟩])
        ["600000.SH", "000001.SZ"] 1 2 9 true).events ∧
    ∀ r ∈ sample_src "000001.SZ" 1 9,
      r ∈ (fetch_volumn_price_data sample_src (some [⟨"600000.SH", 100⟩])
        ["600000.SH", "000001.SZ"] 1 2 9 true).table) :=
  ⟨by decide, by decide, by decide,
   c4_new_ticker_routed_to_backfill sample_src [⟨"600000.SH", 100⟩]
     ["600000.SH", "000001.SZ"] 1 2 9 "000001.SZ"
     (by decide) (by decide) (by decide)⟩

/-- C7: for every data category, incremental mode against a nonexistent or
empty table fails before any per-unit work: the volumn-price shaped
categories (price, limit, fundamental, dividend) raise `LookupError` from
the `_check_table_empty` precondition, the suspension category raises while
deriving its start date from the empty watermark aggregate; in both cases no
per-unit fetch is issued and nothing is inserted. -/
theorem c7_update_on_empty_table_fails_before_unit_work
    (src : String → Nat → Nat → List Row) (ssrc : Nat → List Row)
    (next_trade_day : Nat → Nat) (trade_days : Nat → Nat → List Nat)
    (ticker_list : List String) (start_date end_date today : Nat)
    (existing_table : Option (List Row))
    (h : (ensure_schema existing_table).isEmpty = true) :
    ((fetch_volumn_price_data src existing_table ticker_list
        start_date end_date today true).err.isSome = true ∧
     (fetch_volumn_price_data src existing_table ticker_list
        start_date end_date today true).events = [] ∧
     (fetch_volumn_price_data src existing_table ticker_list
        start_date end_date today true).table = ensure_schema existing_table) ∧
    ((fetch_stock_suspend_data ssrc next_trade_day trade_days existing_table
        start_date end_date today true).err.isSome = true ∧
     (fetch_stock_suspend_data ssrc next_trade_day trade_days existing_table
        start_date end_date today true).fetched = [] ∧
     (fetch_stock_suspend_data ssrc next_trade_day trade_days existing_table
        start_date end_date today true).table = ensure_schema existing_table) := by
  have htbl : ensure_schema existing_table = [] := List.isEmpty_iff.mp h
  constructor
  · simp [fetch_volumn_price_data, h]
  · have hlatest : get_table_date_latest (ensure_schema existing_table) = none := by
      rw [htbl]; rfl
    simp [fetch_stock_suspend_data, hlatest]

theorem c7_update_on_empty_table_fails_before_unit_work_witness :
    (ensure_schema (none : Option (List Row))).isEmpty = true ∧
    ((fetch_volumn_price_data sample_src none ["600000.SH"]
        1 2 9 true).err.isSome = true ∧
     (fetch_volumn_price_data sample_src none ["600000.SH"]
        1 2 9 true).events = [] ∧
     (fetch_volumn_price_data sample_src none ["600000.SH"]
        1 2 9 true).table = ensure_schema none) ∧
    ((fetch_stock_suspend_data (fun _ => []) (fun d => d + 1) (fun _ _ => [])
        none 1 2 9 true).err.isSome = true ∧
     (fetch_stock_suspend_data (fun _ => []) (fun d => d + 1) (fun _ _ => [])
        none 1 2 9 true).fetched = [] ∧
     (fetch_stock_suspend_data (fun _ => []) (fun d => d + 1) (fun _ _ => [])
        none 1 2 9 true).table = ensure_schema none) :=
  ⟨by decide,
   c7_update_on_empty_table_fails_before_unit_work sample_src (fun _ => [])
     (fun d => d + 1) (fun _ _ => []) ["600000.SH"] 1 2 9 none (by decide)⟩

theorem check_data_exists_iff (table : List Row) (c : String) :
    check_data_exists table c = true ↔ ∃ r ∈ table, r.ts_code = c := by
  constructor
  · intro h
    have hne : table.filter (fun r => r.ts_code == c) ≠ [] := by
      intro hnil
      simp [check_data_exists, hnil] at h
    obtain ⟨r, hr⟩ := List.exists_mem_of_ne_nil _ hne
    have := List.mem_filter.mp hr
    exact ⟨r, this.1, eq_of_beq this.2⟩
  · intro ⟨r, hr, hrc⟩
    have hmem : r ∈ table.filter (fun r => r.ts_code == c) :=
      List.mem_filter.mpr ⟨hr, by simp [hrc]⟩
    have hne : (table.filter (fun r => r.ts_code == c)).isEmpty = false := by
      cases hE : (table.filter (fun r => r.ts_code == c)).isEmpty
      · rfl
      · rw [List.isEmpty_iff.mp hE] at hmem; cases hmem
    simp [check_data_exists, hne]

theorem normal_loop_table_mono (src : String → Nat → Nat → List Row) (s e : Nat) :
    ∀ (cs : List String) (table : List Row) (evs : List FetchEvent) (r : Row),
      r ∈ table → r ∈ (normal_loop src s e cs table evs).1 := by
  intro cs
  induction cs with
  | nil => intro table evs r hr; exact hr
  | cons c cs ih =>
    intro table evs r hr
    simp only [normal_loop]
    by_cases hex : check_data_exists table c
    · simp only [hex, if_true]; exact ih _ _ r hr
    · simp only [hex, if_false]
      by_cases hv : check_validity (adapter_result (src c s e))
      · simp only [hv, if_true]; exact ih _ _ r (List.mem_append_left _ hr)
      · simp only [hv, if_false]; exact ih _ _ r hr

theorem normal_loop_covers (src : String → Nat → Nat → List Row) (s e : Nat)
    (hsrc : ∀ c, ∀ r ∈ src c s e, r.ts_code = c) :
    ∀ (cs : List String) (table : List Row) (evs : List FetchEvent) (c : String),
      c ∈ cs → ((∃ r ∈ table, r.ts_code = c) ∨ src c s e ≠ []) →
      ∃ r ∈ (normal_loop src s e cs table evs).1, r.ts_code = c := by
  intro cs
  induction cs with
  | nil => intro table evs c hc; cases hc
  | cons c' cs ih =>
    intro table evs c hc hdisj
    simp only [normal_loop]
    rcases List.mem_cons.mp hc with hceq | hcs
    · subst hceq
      by_cases hex : check_data_exists table c
      · simp only [hex, if_true]
        obtain ⟨r, hr, hrc⟩ := (check_data_exists_iff table c).mp hex
        exact ⟨r, normal_loop_table_mono src s e cs table evs r hr, hrc⟩
      · simp only [hex, if_false]
        have hraw : src c s e ≠ [] := by
          rcases hdisj with h1 | h2
          · exact absurd ((check_data_exists_iff table c).mpr h1) hex
          · exact h2
        have hrawE : (src c s e).isEmpty = false := by
          cases hE : (src c s e).isEmpty
          · rfl
          · exact absurd (List.isEmpty_iff.mp hE) hraw
        have hv : check_validity (adapter_result (src c s e)) = true := by
          rw [check_validity_adapter, hrawE]; rfl
        simp only [hv, if_true]
        obtain ⟨r0, hr0⟩ := List.exists_mem_of_ne_nil _ hraw
        refine ⟨r0, ?_, hsrc c r0 hr0⟩
        refine normal_loop_table_mono src s e cs _ _ r0 ?_
        have hdata : (adapter_result (src c s e)).getD [] = src c s e := by
          simp [adapter_result, hrawE]
        rw [hdata]
        exact List.mem_append_right _ hr0
    · by_cases hex : check_data_exists table c'
      · simp only [hex, if_true]; exact ih table evs c hcs hdisj
      · simp only [hex, if_false]
        by_cases hv : check_validity (adapter_result (src c' s e))
        · simp only [hv, if_true]
          refine ih _ _ c hcs ?_
          rcases hdisj with ⟨r, hr, hrc⟩ | h2
          · exact Or.inl ⟨r, List.mem_append_left _ hr, hrc⟩
          · exact Or.inr h2
        · simp only [hv, if_false]; exact ih _ _ c hcs hdisj

theorem normal_loop_fixpoint (src : String → Nat → Nat → List Row) (s e : Nat) :
    ∀ (cs : List String) (table : List Row) (evs : List FetchEvent),
      (∀ c ∈ cs, src c s e = [] ∨ check_data_exists table c = true) →
      (normal_loop src s e cs table evs).1 = table ∧
      ∀ ev ∈ (normal_loop src s e cs table evs).2,
        ev ∈ evs ∨ check_data_exists table ev.ticker = false := by
  intro cs
  induction cs with
  | nil => intro table evs _; exact ⟨rfl, fun ev hev => Or.inl hev⟩
  | cons c cs ih =>
    intro table evs hcond
    simp only [normal_loop]
    by_cases hex : check_data_exists table c
    · simp only [hex, if_true]
      exact ih table evs (fun c' hc' => hcond c' (List.mem_cons_of_mem _ hc'))
    · simp only [hex, if_false]
      have hraw : src c s e = [] := by
        rcases hcond c (List.mem_cons_self c cs) with h | h
        · exact h
        · exact absurd h hex
      by_cases hv : check_validity (adapter_result (src c s e))
      · rw [check_validity_adapter, hraw] at hv
        simp at hv
      · simp only [hv, if_false]
        obtain ⟨ht, hevs⟩ := ih table (evs ++ [⟨c, s, e⟩])
          (fun c' hc' => hcond c' (List.mem_cons_of_mem _ hc'))
        refine ⟨ht, fun ev hev => ?_⟩
        rcases hevs ev hev with hin | hnew
        · rcases List.mem_append.mp hin with h1 | h2
          · exact Or.inl h1
          · have hev2 : ev = ⟨c, s, e⟩ := List.mem_singleton.mp h2
            subst hev2
            right
            cases hE : check_data_exists table c
            · rfl
            · exact absurd hE hex
        · exact Or.inr hnew

theorem normal_loop_nodup (src : String → Nat → Nat → List Row) (s e : Nat)
    (hsrc : ∀ c, ∀ r ∈ src c s e, r.ts_code = c)
    (hkeys : ∀ c, ((src c s e).map Row.date).Nodup) :
    ∀ (cs : List String) (table : List Row) (evs : List FetchEvent),
      (table.map composite_key).Nodup →
      ((normal_loop src s e cs table evs).1.map composite_key).Nodup := by
  intro cs
  induction cs with
  | nil => intro table evs h; exact h
  | cons c cs ih =>
    intro table evs hnd
    simp only [normal_loop]
    by_cases hex : check_data_exists table c
    · simp only [hex, if_true]; exact ih table evs hnd
    · simp only [hex, if_false]
      by_cases hv : check_validity (adapter_result (src c s e))
      · simp only [hv, if_true]
        refine ih _ _ ?_
        have hrawE : (src c s e).isEmpty = false := by
          rw [check_validity_adapter] at hv
          simpa using hv
        have hdata : (adapter_result (src c s e)).getD [] = src c s e := by
          simp [adapter_result, hrawE]
        rw [hdata, List.map_append]
        refine List.nodup_append.mpr ⟨hnd, ?_, ?_⟩
        · have hmapeq : (src c s e).map composite_key
              = ((src c s e).map Row.date).map (fun d => (c, d)) := by
            rw [List.map_map]
            exact List.map_congr_left (fun r hr => by
              simp [composite_key, Function.comp, hsrc c r hr])
          rw [hmapeq]
          exact (hkeys c).map (fun d1 d2 h => by simpa using h)
        · intro k hk1 hk2
          obtain ⟨r1, hr1, hk1e⟩ := List.mem_map.mp hk1
          obtain ⟨r2, hr2, hk2e⟩ := List.mem_map.mp hk2
          have h1 : r1.ts_code ≠ c := by
            intro hcontra
            exact hex ((check_data_exists_iff table c).mpr ⟨r1, hr1, hcontra⟩)
          have h2 : r2.ts_code = c := hsrc c r2 hr2
          apply h1
          have : r1.ts_code = r2.ts_code := by
            have hkk : composite_key r1 = composite_key r2 := by rw [hk1e, hk2e]
            simpa [composite_key] using congrArg Prod.fst hkk
          rw [this, h2]
      · simp only [hv, if_false]
        exact ih table (evs ++ [⟨c, s, e⟩]) hnd

/-- C8: running the same full backfill twice against an initially empty
table yields the same final row set as running it once — on the second run
every persisted entity is detected by the point-existence check and is not
re-inserted (its fetch events do not occur), and no composite key
`(entity, date)` is duplicated — provided the source returns, per ticker,
that ticker's rows with distinct dates. -/
theorem c8_double_backfill_idempotent (src : String → Nat → Nat → List Row)
    (ticker_list : List String) (start_date end_date today : Nat)
    (hsrc : ∀ c, ∀ r ∈ src c start_date end_date, r.ts_code = c)
    (hkeys : ∀ c, ((src c start_date end_date).map Row.date).Nodup) :
    (run_backfill src ticker_list start_date end_date today
      (run_backfill src ticker_list start_date end_date today []).table).table
      = (run_backfill src ticker_list start_date end_date today []).table ∧
    ((run_backfill src ticker_list start_date end_date today []).table.map
        composite_key).Nodup ∧
    ∀ ev ∈ (run_backfill src ticker_list start_date end_date today
        (run_backfill src ticker_list start_date end_date today []).table).events,
      check_data_exists
        (run_backfill src ticker_list start_date end_date today []).table
        ev.ticker = false := by
  have hrb : ∀ t : List Row,
      run_backfill src ticker_list start_date end_date today t
        = { table := (normal_loop src start_date end_date ticker_list t []).1,
            events := (normal_loop src start_date end_date ticker_list t []).2,
            err := none } := by
    intro t
    simp [run_backfill, fetch_volumn_price_data, ensure_schema]
  have hcov : ∀ c ∈ ticker_list,
      src c start_date end_date = [] ∨
      check_data_exists (normal_loop src start_date end_date ticker_list [] []).1 c
        = true := by
    intro c hc
    by_cases hempty : src c start_date end_date = []
    · exact Or.inl hempty
    · refine Or.inr ((check_data_exists_iff _ c).mpr ?_)
      exact normal_loop_covers src start_date end_date hsrc ticker_list [] [] c hc
        (Or.inr hempty)
  obtain ⟨hfix, hevents⟩ := normal_loop_fixpoint src start_date end_date ticker_list
    (normal_loop src start_date end_date ticker_list [] []).1 [] hcov
  refine ⟨?_, ?_, ?_⟩
  · rw [hrb, hrb]
    exact hfix
  · rw [hrb]
    exact normal_loop_nodup src start_date end_date hsrc hkeys ticker_list [] []
      (by simp)
  · intro ev hev
    rw [hrb] at hev ⊢
    rw [hrb] at hev
    rcases hevents ev hev with h1 | h2
    · cases h1
    · exact h2

theorem c8_double_backfill_idempotent_witness :
    (∀ c, ∀ r ∈ sample_src c 1 2, r.ts_code = c) ∧
    (∀ c, ((sample_src c 1 2).map Row.date).Nodup) ∧
    ((run_backfill sample_src ["600000.SH", "000001.SZ"] 1 2 9
      (run_backfill sample_src ["600000.SH", "000001.SZ"] 1 2 9 []).table).table
      = (run_backfill sample_src ["600000.SH", "000001.SZ"] 1 2 9 []).table ∧
    ((run_backfill sample_src ["600000.SH", "000001.SZ"] 1 2 9 []).table.map
        composite_key).Nodup ∧
    ∀ ev ∈ (run_backfill sample_src ["600000.SH", "000001.SZ"] 1 2 9
        (run_backfill sample_src ["600000.SH", "000001.SZ"] 1 2 9 []).table).events,
      check_data_exists
        (run_backfill sample_src ["600000.SH", "000001.SZ"] 1 2 9 []).table
        ev.ticker = false) :=
  ⟨fun c r hr => by simpa [sample_src] using congrArg Row.ts_code (by simpa [sample_src] using hr),
   fun c => by simp [sample_src],
   c8_double_backfill_idempotent sample_src ["600000.SH", "000001.SZ"] 1 2 9
     (fun c r hr => by
       simp only [sample_src, List.mem_singleton] at hr
       rw [hr])
     (fun c => by simp [sample_src])⟩

/-- C5 counterexample: with the batch `["600000.SH", "000001.SZ"]` where the
first unit's fetch raises, the exception is NOT caught at the engine
boundary: no further unit executes (the completed-unit list is empty, the
second unit's row is never inserted) and the error propagates out of the
engine call — refuting "only that unit is skipped; all remaining units of
the batch still execute". -/
theorem c5_counterexample_exception_aborts_batch :
    feed_loop c5_fetch ["600000.SH", "000001.SZ"] []
      = ([], [], some "ConnectionError: boom") := by
  rfl

/-- C5 (amended): a unit whose fetch returns an invalid (empty) result is
logged and skipped and the remaining units still execute; but a unit whose
fetch raises an exception is not caught at the engine boundary: exactly the
units before it complete, the exception propagates out of the engine call,
and the remaining units of the batch never execute. -/
theorem c5_amended_exception_propagates
    (fetch : String → Except String (List Row))
    (pre post : List String) (u e : String) (table : List Row)
    (hpre : ∀ v ∈ pre, ∃ d, fetch v = Except.ok d)
    (hu : fetch u = Except.error e) :
    (feed_loop fetch (pre ++ u :: post) table).2.1 = pre ∧
    (feed_loop fetch (pre ++ u :: post) table).2.2 = some e := by
  induction pre generalizing table with
  | nil =>
    simp [feed_loop, hu]
  | cons v vs ih =>
    obtain ⟨d, hd⟩ := hpre v (List.mem_cons_self v vs)
    have hrest : ∀ w ∈ vs, ∃ d', fetch w = Except.ok d' :=
      fun w hw => hpre w (List.mem_cons_of_mem _ hw)
    simp only [List.cons_append, feed_loop, hd]
    by_cases hv : check_validity (adapter_result d)
    · simp only [hv, if_true]
      obtain ⟨h1, h2⟩ := ih (table ++ d) hrest
      exact ⟨congrArg (List.cons v) h1, h2⟩
    · simp only [hv, if_false]
      obtain ⟨h1, h2⟩ := ih table hrest
      exact ⟨congrArg (List.cons v) h1, h2⟩

theorem c5_amended_exception_propagates_witness :
    (∀ v ∈ ["000001.SZ"], ∃ d, c5_fetch v = Except.ok d) ∧
    c5_fetch "600000.SH" = Except.error "ConnectionError: boom" ∧
    ((feed_loop c5_fetch (["000001.SZ"] ++ "600000.SH" :: []) []).2.1
        = ["000001.SZ"] ∧
     (feed_loop c5_fetch (["000001.SZ"] ++ "600000.SH" :: []) []).2.2
        = some "ConnectionError: boom") :=
  ⟨fun v hv => by
      simp only [List.mem_singleton] at hv
      exact ⟨[⟨"000001.SZ", 7⟩], by rw [hv]; rfl⟩,
   rfl,
   c5_amended_exception_propagates c5_fetch ["000001.SZ"] [] "600000.SH"
     "ConnectionError: boom" []
     (fun v hv => by
       simp only [List.mem_singleton] at hv
       exact ⟨[⟨"000001.SZ", 7⟩], by rw [hv]; rfl⟩)
     rfl⟩

set_option maxRecDepth 100000 in
/-- C3 counterexample: the limiter is a fixed-window counter, not a rolling
one — under the valid schedule `c3_sched` (fresh window starting at second
0), 1000 calls are admitted inside the single rolling 60-second window
`(0, 60]`, twice the configured budget of 500. -/
theorem c3_counterexample_rolling_window_exceeded :
    valid_sched 500 (RLState.mk 0 0) 0 c3_sched = true ∧
    500 < ((rate_limiter_run 500 (RLState.mk 0 0) c3_sched).filter
      (fun a => decide (0 < a) && decide (a ≤ 60))).length := by
  constructor
  · decide
  · decide

theorem rate_limiter_step_reset (N : Nat) (st : RLState) (t : Nat)
    (h : st.start + 60 < t) (hN : 1 ≤ N) :
    rate_limiter_step N st t = (RLState.mk 1 t, t) := by
  have hz : ¬ (N ≤ 0) := by omega
  simp [rate_limiter_step, h, hz]

theorem rate_limiter_step_sleep (N : Nat) (st : RLState) (t : Nat)
    (h : ¬ st.start + 60 < t) (hc : N ≤ st.calls) :
    rate_limiter_step N st t
      = (RLState.mk 1 (max t (st.start + 60)), max t (st.start + 60)) := by
  simp [rate_limiter_step, h, hc]

theorem rate_limiter_step_go (N : Nat) (st : RLState) (t : Nat)
    (h : ¬ st.start + 60 < t) (hc : ¬ N ≤ st.calls) :
    rate_limiter_step N st t = (RLState.mk (st.calls + 1) st.start, t) := by
  simp [rate_limiter_step, h, hc]

theorem rl_pacing_aux (N t0 : Nat) (hN : 1 ≤ N) :
    ∀ (sched : List Nat) (st : RLState) (lb k e : Nat),
      valid_sched N st lb sched = true →
      k ≤ N * e + st.calls → st.calls ≤ N →
      t0 + 60 * e ≤ st.start → st.start ≤ lb →
      ∀ j a, (rate_limiter_run N st sched)[j]? = some a →
        t0 + 60 * ((k + j) / N) ≤ a := by
  have hNpos : 0 < N := hN
  intro sched
  induction sched with
  | nil =>
    intro st lb k e _ _ _ _ _ j a hj
    simp [rate_limiter_run] at hj
  | cons t ts ih =>
    intro st lb k e hv hk hcalls hstart hlb j a hj
    simp only [valid_sched, Bool.and_eq_true, decide_eq_true_eq] at hv
    obtain ⟨hlbt, hvrest⟩ := hv
    simp only [rate_limiter_run] at hj
    have hmul : N * (e + 1) = N * e + N := by ring
    by_cases hreset : st.start + 60 < t
    · rw [rate_limiter_step_reset N st t hreset hN] at hj hvrest
      cases j with
      | zero =>
        simp only [List.getElem?_cons_zero, Option.some_inj] at hj
        subst hj
        have hkle : k ≤ N * (e + 1) := by omega
        have hdiv : k / N ≤ e + 1 := by
          calc k / N ≤ N * (e + 1) / N := Nat.div_le_div_right hkle
          _ = e + 1 := Nat.mul_div_cancel_left _ hNpos
        rw [Nat.add_zero]
        omega
      | succ j' =>
        simp only [List.getElem?_cons_succ] at hj
        have := ih (RLState.mk 1 t) t (k + 1) (e + 1) hvrest
          (by simp; omega) (by simp; omega) (by simp; omega) (le_refl t) j' a hj
        rw [show k + (j' + 1) = k + 1 + j' from by omega]
        exact this
    · by_cases hsleep : N ≤ st.calls
      · rw [rate_limiter_step_sleep N st t hreset hsleep] at hj hvrest
        have hadm : st.start + 60 ≤ max t (st.start + 60) := Nat.le_max_right _ _
        cases j with
        | zero =>
          simp only [List.getElem?_cons_zero, Option.some_inj] at hj
          subst hj
          have hkle : k ≤ N * (e + 1) := by omega
          have hdiv : k / N ≤ e + 1 := by
            calc k / N ≤ N * (e + 1) / N := Nat.div_le_div_right hkle
            _ = e + 1 := Nat.mul_div_cancel_left _ hNpos
          rw [Nat.add_zero]
          omega
        | succ j' =>
          simp only [List.getElem?_cons_succ] at hj
          have := ih (RLState.mk 1 (max t (st.start + 60))) (max t (st.start + 60))
            (k + 1) (e + 1) hvrest
            (by simp; omega) (by simp; omega) (by simp; omega)
            (le_refl _) j' a hj
          rw [show k + (j' + 1) = k + 1 + j' from by omega]
          exact this
      · rw [rate_limiter_step_go N st t hreset hsleep] at hj hvrest
        cases j with
        | zero =>
          simp only [List.getElem?_cons_zero, Option.some_inj] at hj
          subst hj
          have hklt : k < N * (e + 1) := by omega
          have hdiv : k / N ≤ e := by
            have h1 : k / N < e + 1 := by
              rw [Nat.div_lt_iff_lt_mul hNpos]
              rw [Nat.mul_comm] at hklt
              exact hklt
            omega
          rw [Nat.add_zero]
          omega
        | succ j' =>
          simp only [List.getElem?_cons_succ] at hj
          have := ih (RLState.mk (st.calls + 1) st.start) t (k + 1) e hvrest
            (by simp; omega) (by simp; omega) (by simp; omega)
            (Nat.le_trans hlb hlbt) j' a hj
          rw [show k + (j' + 1) = k + 1 + j' from by omega]
          exact this

/-- C3 (amended): the `rate_limiter` of each decorated fetch operation is a
fixed-window counter, not a rolling-window one, and each decorated method
owns its own counter.  What holds is fixed-window pacing: starting from a
fresh window at instant `t0`, under any valid sequential schedule the
`j`-th admitted call (0-indexed) proceeds no earlier than
`t0 + 60 * (j / max_calls)`; in particular the `2N`-th of `2N`
back-to-back calls is admitted at or after `t0 + 60`, i.e. `2N` calls take
at least a full 60-second window from the fresh window start.  The
rolling-window bound of the original claim fails
(`c3_counterexample_rolling_window_exceeded`). -/
theorem c3_amended_fixed_window_pacing (N t0 : Nat) (hN : 1 ≤ N)
    (sched : List Nat) (hv : valid_sched N (RLState.mk 0 t0) t0 sched = true)
    (j a : Nat) (hj : (rate_limiter_run N (RLState.mk 0 t0) sched)[j]? = some a) :
    t0 + 60 * (j / N) ≤ a := by
  have := rl_pacing_aux N t0 hN sched (RLState.mk 0 t0) t0 0 0 hv
    (by simp) (by simp) (by simp) (le_refl t0) j a hj
  simpa using this

theorem c3_amended_fixed_window_pacing_witness :
    1 ≤ 2 ∧
    valid_sched 2 (RLState.mk 0 0) 0 [0, 0, 0, 60] = true ∧
    (rate_limiter_run 2 (RLState.mk 0 0) [0, 0, 0, 60])[3]? = some 60 ∧
    0 + 60 * (3 / 2) ≤ 60 :=
  ⟨by decide, by decide, by decide,
   c3_amended_fixed_window_pacing 2 0 (by decide) [0, 0, 0, 60] (by decide)
     3 60 (by decide)⟩

/-- C10: `DatabaseConnection` is a process-wide singleton.  Two successive
`connection_factory` calls for any supported backends both return the very
same object (`singleton_ref`), and the second call re-runs `__init__`,
overwriting every connection attribute with the second call's
configuration — attributes not supplied by it are reset to `None` — so the
final state does not depend on the first call's backend or on the prior
state at all. -/
theorem c10_connection_factory_singleton_overwrites
    (cfg_of : DbType → BackendCfg) (s0 : PyState) (db1 db2 : DbType)
    (h1 : is_supported db1 = true) (h2 : is_supported db2 = true) :
    ∃ s1 s2 : PyState,
      connection_factory cfg_of db1 s0 = Except.ok (singleton_ref, s1) ∧
      connection_factory cfg_of db2 s1 = Except.ok (singleton_ref, s2) ∧
      s2 = { instance_allocated := true, attrs := factory_attrs cfg_of db2 } := by
  cases db1 <;> cases db2 <;>
    try (refine ⟨_, _, rfl, rfl, ?_⟩ <;>
      simp [connection_builder_build, database_connection_call,
        database_connection_new, factory_attrs])
  all_goals simp [is_supported] at h1 h2

theorem c10_connection_factory_singleton_overwrites_witness :
    is_supported DbType.duckdb = true ∧
    is_supported DbType.mongodb = true ∧
    (∃ s1 s2 : PyState,
      connection_factory (fun _ => BackendCfg.mk (some "localhost") (some 27017)
        none none "/tmp/data.db" "/tmp/factor.db") DbType.duckdb
        (PyState.mk false (ConnAttrs.mk none none none none none none))
        = Except.ok (singleton_ref, s1) ∧
      connection_factory (fun _ => BackendCfg.mk (some "localhost") (some 27017)
        none none "/tmp/data.db" "/tmp/factor.db") DbType.mongodb s1
        = Except.ok (singleton_ref, s2) ∧
      s2 = { instance_allocated := true,
             attrs := factory_attrs (fun _ => BackendCfg.mk (some "localhost")
               (some 27017) none none "/tmp/data.db" "/tmp/factor.db")
               DbType.mongodb }) :=
  ⟨rfl, rfl,
   c10_connection_factory_singleton_overwrites
     (fun _ => BackendCfg.mk (some "localhost") (some 27017) none none
       "/tmp/data.db" "/tmp/factor.db")
     (PyState.mk false (ConnAttrs.mk none none none none none none))
     DbType.duckdb DbType.mongodb rfl rfl⟩
